import Mathlib

/-!
# digitalocean_exporter: the image and kubernetes collectors

A shallow embedding of `collector/image.go` and `collector/kubernetes.go`.

* The remote client call (`Images.ListUser`, `Kubernetes.List`) is an input of
  `Collect`: the pair Go returns, a slice together with an error that is
  `none` for `nil`.
* The channel `ch` becomes the list of metrics sent on it, in sending order.
* `c.errors` (a shared `*prometheus.CounterVec`) is threaded as explicit state.
* A Go panic (`MustNewConstMetric` on an arity mismatch) is `Except.error`.
* Go `int` is the 64-bit integer of the 64-bit targets the exporter is built
  for; a product that leaves the range wraps around.
* Every sample value in these two files is `float64(n)` for a machine integer
  `n`, or the literal `0` / `1.0`. Such a value is itself an integer, and a
  metric keeps it as one; `float64` is the conversion, which rounds an integer
  of more than 53 significant bits to the nearest representable one, ties to
  the even mantissa. The length of a slice is far below 2^53, where the
  conversion changes nothing, and is kept as it is.
* The goroutines spawned per node pool send in an order chosen by the runtime;
  a `Scheduler` gives that order and `Collect` is stated for every scheduler.
* Logging has no effect on the metrics or the counters and is left out.
-/

namespace Collector

/-! ## Machine integers -/

/-- The wrap of a mathematical integer into the 64-bit `int` of Go: the integer of the range
-2^63 .. 2^63 - 1 that differs from it by a multiple of 2^64. -/
def wrapInt (x : Int) : Int :=
  (x + 9223372036854775808) % 18446744073709551616 - 9223372036854775808

/-- The product `a * b` on the `int` of Go. -/
def mulInt (a b : Int) : Int := wrapInt (a * b)

/-- The multiple of `2 ^ s` nearest to `a`; of two equally near ones, the one whose quotient
by `2 ^ s` is even. -/
def roundHalfEven (a s : Nat) : Nat :=
  let q := a / 2 ^ s
  let r := a % 2 ^ s
  if 2 * r < 2 ^ s then q * 2 ^ s
  else if 2 ^ s < 2 * r then (q + 1) * 2 ^ s
  else if q % 2 = 0 then q * 2 ^ s
  else (q + 1) * 2 ^ s

/-- The number of low bits a magnitude has beyond 53 significant bits: how often it is halved
before it is below 2^53. Eleven halvings are enough for a magnitude of at most 2^63. -/
def float64Shift : Nat → Nat → Nat
  | 0, _ => 0
  | fuel + 1, a => if a < 9007199254740992 then 0 else float64Shift fuel (a / 2) + 1

/-- The conversion `float64(n)` of a Go `int`: the value of the nearest number with a 53-bit
mantissa, ties to even, which is an integer again. -/
def float64 (n : Int) : Int :=
  let v := roundHalfEven n.natAbs (float64Shift 11 n.natAbs)
  if n < 0 then -(v : Int) else (v : Int)

/-- The standard library call `fmt.Sprintf` with the verb `%d` on an `int`: decimal digits,
a leading `-` when negative. -/
def Sprintf_d (n : Int) : String := toString n

/-! ## The prometheus client, as far as the collectors use it -/

/-- Modelled from the spec: the type `prometheus.Desc` of the client library, which fixes a
metric name, a help string and an ordered list of label names. -/
structure Desc where
  fqName : String
  help : String
  variableLabels : List String
deriving DecidableEq, Repr

/-- Modelled from the spec: the library call `prometheus.NewDesc(fqName, help,
variableLabels, nil)`. -/
def NewDesc (fqName help : String) (variableLabels : List String) : Desc :=
  { fqName := fqName, help := help, variableLabels := variableLabels }

/-- Modelled from the spec: the metric sample of the client library, a descriptor, a value
and a label tuple. The value is the number the `float64` argument of the code denotes, an
integer in every call of the two collectors. -/
structure Metric where
  desc : Desc
  value : Int
  labelValues : List String
deriving DecidableEq, Repr

/-- Modelled from the spec: the library call `prometheus.MustNewConstMetric(desc, GaugeValue,
value, labelValues...)`. A sample must supply exactly as many label values as the
descriptor has label names; the call panics otherwise. -/
def MustNewConstMetric (desc : Desc) (value : Int) (labelValues : List String) :
    Except String Metric :=
  if labelValues.length ≠ desc.variableLabels.length then
    Except.error "inconsistent label cardinality"
  else
    Except.ok { desc := desc, value := value, labelValues := labelValues }

/-- Modelled from the spec: the error sink, a `prometheus.CounterVec` of the client library
with one label, mapping a resource kind to a failure count; `none` for a kind that has no
entry yet. -/
structure CounterVec where
  value : String → Option Nat

/-- Modelled from the spec: the error sink before any entry is registered. -/
def CounterVec.empty : CounterVec := { value := fun _ => none }

/-- Modelled from the spec: the library call `v.WithLabelValues(label).Add(n)`, which creates
the entry at zero when it is missing, then adds `n` to it. -/
def CounterVec.Add (v : CounterVec) (label : String) (n : Nat) : CounterVec :=
  { value := fun l => if l = label then some ((v.value l).getD 0 + n) else v.value l }

/-! ## The godo client, as far as the collectors use it -/

/-- Modelled from the spec: the record `godo.Image` of the client library, with the fields
the collector reads; the field `Type` is written `Type_`. -/
structure Image where
  ID : Int
  Name : String
  Type_ : String
  Distribution : String
  Regions : List String
  MinDiskSize : Int
deriving DecidableEq, Repr

/-- Modelled from the spec: the record `godo.KubernetesNodePool` of the client library, with
the fields the collector reads. -/
structure KubernetesNodePool where
  ID : String
  Name : String
  Count : Int
deriving DecidableEq, Repr

/-- Modelled from the spec: the record `godo.KubernetesClusterStatus` of the client library;
the state is a name, of which the collector tells apart only the running one. -/
structure KubernetesClusterStatus where
  State : String
deriving DecidableEq, Repr

/-- Modelled from the spec: the record `godo.KubernetesCluster` of the client library, with
the fields the collector reads. -/
structure KubernetesCluster where
  ID : String
  Name : String
  RegionSlug : String
  Status : KubernetesClusterStatus
  NodePools : List KubernetesNodePool
deriving DecidableEq, Repr

/-- Modelled from the spec: the constant `godo.KubernetesClusterStatusRunning` of the client
library, the state named running. -/
def KubernetesClusterStatusRunning : String := "running"

/-! ## collector/image.go -/

/-- The struct `ImageCollector`; logger, client and timeout do not reach the metrics. -/
structure ImageCollector where
  MinDiskSize : Desc
deriving DecidableEq, Repr

/-- The constructor `NewImageCollector`: registers the `image` error counter at zero and
builds the descriptor. -/
def NewImageCollector (errors : CounterVec) : ImageCollector × CounterVec :=
  let errors := errors.Add "image" 0
  let labels := ["id", "name", "region", "type", "distribution"]
  ({ MinDiskSize := NewDesc "digitalocean_image_min_disk_size_bytes"
      "Minimum disk size for a droplet to run this image on in bytes" labels }, errors)

/-- The method `ImageCollector.Describe`: the descriptors sent on the channel. -/
def ImageCollector.Describe (c : ImageCollector) : List Desc := [c.MinDiskSize]

/-- The `for _, img := range images` loop of `ImageCollector.Collect`: returns at the first
image without a region, otherwise sends one metric and goes on. -/
def ImageCollector.collectLoop (c : ImageCollector) : List Image → Except String (List Metric)
  | [] => Except.ok []
  | img :: rest =>
    match img.Regions with
    | [] => Except.ok []
    | region0 :: _ =>
      match MustNewConstMetric c.MinDiskSize
          (float64 (mulInt (mulInt (mulInt img.MinDiskSize 1024) 1024) 1024))
          [Sprintf_d img.ID, img.Name, region0, img.Type_, img.Distribution] with
      | Except.error e => Except.error e
      | Except.ok m =>
        match ImageCollector.collectLoop c rest with
        | Except.error e => Except.error e
        | Except.ok ms => Except.ok (m :: ms)

/-- The method `ImageCollector.Collect` on the result `(images, err)` of `Images.ListUser`:
the counters afterwards and the metrics sent. -/
def ImageCollector.Collect (c : ImageCollector) (errors : CounterVec)
    (images : List Image) (err : Option String) : Except String (CounterVec × List Metric) :=
  match err with
  | some _ => Except.ok (errors.Add "image" 1, [])
  | none =>
    match c.collectLoop images with
    | Except.error e => Except.error e
    | Except.ok ms => Except.ok (errors, ms)

/-! ## collector/kubernetes.go -/

/-- The struct `KubernetesCollector`. -/
structure KubernetesCollector where
  Up : Desc
  Count : Desc
  NodePools : Desc
  Nodes : Desc
deriving DecidableEq, Repr

/-- The constructor `NewKubernetesCollector`: registers the `kubernetes` error counter at zero
and builds the four descriptors. -/
def NewKubernetesCollector (errors : CounterVec) : KubernetesCollector × CounterVec :=
  let errors := errors.Add "kubernetes" 0
  let labels := ["id", "name", "region"]
  ({ Count := NewDesc "digitalocean_kubernetes_cluster_count"
      "Number of Kubernetes clusters" []
     Up := NewDesc "digitalocean_kubernetes_cluster_up"
      "If 1 the kubernetes cluster is up and running, 0 otherwise" labels
     NodePools := NewDesc "digitalocean_kubernetes_nodepools_count"
      "Number of Kubernetes nodepools" labels
     Nodes := NewDesc "digitalocean_kubernetes_nodes_count"
      "Number of Kubernetes nodes" labels }, errors)

/-- The method `KubernetesCollector.Describe`: the descriptors sent on the channel. -/
def KubernetesCollector.Describe (c : KubernetesCollector) : List Desc :=
  [c.Count, c.Up, c.NodePools]

/-- The order in which the goroutines of one cluster get to send: for the cluster at a given
position, a rearrangement of the metrics the goroutines hold. -/
structure Scheduler where
  order : Nat → List Metric → List Metric
  perm : ∀ (i : Nat) (l : List Metric), (order i l).Perm l

/-- The scheduler that lets the goroutines send in the order they were spawned. -/
def Scheduler.spawnOrder : Scheduler :=
  { order := fun _ l => l, perm := fun _ l => List.Perm.refl l }

/-- The scheduler that lets the goroutine spawned last send first. -/
def Scheduler.lastFirst : Scheduler :=
  { order := fun _ l => l.reverse, perm := fun _ l => List.reverse_perm l }

/-- The variable `active` of `KubernetesCollector.Collect`: zero unless the state is running. -/
def active (cluster : KubernetesCluster) : Int :=
  if cluster.Status.State = KubernetesClusterStatusRunning then 1 else 0

/-- The body of the goroutine spawned for a node pool, up to the send. -/
def KubernetesCollector.nodePoolTask (c : KubernetesCollector) (np : KubernetesNodePool) :
    Except String Metric :=
  MustNewConstMetric c.Nodes (float64 np.Count) [np.ID, np.Name, ""]

/-- The goroutines of one cluster, in spawn order: the metrics they hold, or the panic of the
first that panics. -/
def KubernetesCollector.nodePoolTasks (c : KubernetesCollector) :
    List KubernetesNodePool → Except String (List Metric)
  | [] => Except.ok []
  | np :: rest =>
    match c.nodePoolTask np with
    | Except.error e => Except.error e
    | Except.ok m =>
      match KubernetesCollector.nodePoolTasks c rest with
      | Except.error e => Except.error e
      | Except.ok ms => Except.ok (m :: ms)

/-- The `for _, cluster := range clusters` loop of `KubernetesCollector.Collect`, from the
cluster at position `i` on: the up metric, the node pool count, then the sends of the
goroutines in the order the scheduler picks, all before the next cluster (`wg.Wait`). -/
def KubernetesCollector.collectLoop (c : KubernetesCollector) (sched : Scheduler) :
    Nat → List KubernetesCluster → Except String (List Metric)
  | _, [] => Except.ok []
  | i, cluster :: rest =>
    let labels := [cluster.ID, cluster.Name, cluster.RegionSlug]
    match MustNewConstMetric c.Up (active cluster) labels with
    | Except.error e => Except.error e
    | Except.ok up =>
      match MustNewConstMetric c.NodePools (cluster.NodePools.length : Int) labels with
      | Except.error e => Except.error e
      | Except.ok pools =>
        match c.nodePoolTasks cluster.NodePools with
        | Except.error e => Except.error e
        | Except.ok nodes =>
          match KubernetesCollector.collectLoop c sched (i + 1) rest with
          | Except.error e => Except.error e
          | Except.ok ms => Except.ok (up :: pools :: (sched.order i nodes ++ ms))

/-- The method `KubernetesCollector.Collect` on the result `(clusters, err)` of
`Kubernetes.List`: an error is counted and the method goes on with the slice it got. -/
def KubernetesCollector.Collect (c : KubernetesCollector) (sched : Scheduler)
    (errors : CounterVec) (clusters : List KubernetesCluster) (err : Option String) :
    Except String (CounterVec × List Metric) :=
  let errors := match err with
    | some _ => errors.Add "kubernetes" 1
    | none => errors
  match MustNewConstMetric c.Count (clusters.length : Int) [] with
  | Except.error e => Except.error e
  | Except.ok count =>
    match c.collectLoop sched 0 clusters with
    | Except.error e => Except.error e
    | Except.ok ms => Except.ok (errors, count :: ms)

/-- Consecutive `Collect` calls of one collector, one per fetch result: the counters after the
last call; a panic ends the run. -/
def scrapes {F : Type} (collect : CounterVec → F → Except String (CounterVec × List Metric)) :
    CounterVec → List F → Except String CounterVec
  | errors, [] => Except.ok errors
  | errors, f :: fs =>
    match collect errors f with
    | Except.error e => Except.error e
    | Except.ok r => scrapes collect r.1 fs


/-! ## Example inputs -/

/-- An image with a negative id and two regions. -/
def imgTwoRegions : Image :=
  { ID := -7, Name := "a", Type_ := "snapshot", Distribution := "Ubuntu",
    Regions := ["nyc1", "ams2"], MinDiskSize := 20 }

/-- An image with one region. -/
def imgOneRegion : Image :=
  { ID := 8, Name := "b", Type_ := "backup", Distribution := "Debian",
    Regions := ["fra1"], MinDiskSize := 25 }

/-- An image without a region. -/
def imgNoRegion : Image :=
  { ID := 9, Name := "c", Type_ := "snapshot", Distribution := "Fedora",
    Regions := [], MinDiskSize := 30 }

/-- An image whose minimum disk size is 2^33 gigabytes. -/
def imgHugeDisk : Image :=
  { ID := 10, Name := "d", Type_ := "snapshot", Distribution := "Ubuntu",
    Regions := ["nyc1"], MinDiskSize := 8589934592 }

/-- A running cluster with two node pools. -/
def clusterTwoPools : KubernetesCluster :=
  { ID := "c1", Name := "prod", RegionSlug := "nyc1", Status := { State := "running" },
    NodePools := [{ ID := "p1", Name := "pool-a", Count := 3 },
                  { ID := "p2", Name := "pool-b", Count := 5 }] }

/-- A cluster whose two node pools have 2^53 and 2^53 + 1 nodes. -/
def clusterHugePools : KubernetesCluster :=
  { ID := "c3", Name := "huge", RegionSlug := "fra1", Status := { State := "running" },
    NodePools := [{ ID := "p4", Name := "pool-d", Count := 9007199254740992 },
                  { ID := "p5", Name := "pool-e", Count := 9007199254740993 }] }

/-- A cluster that is being provisioned, with one node pool. -/
def clusterProvisioning : KubernetesCluster :=
  { ID := "c2", Name := "staging", RegionSlug := "ams3", Status := { State := "provisioning" },
    NodePools := [{ ID := "p3", Name := "pool-c", Count := 1 }] }

/-! ## Lemmas on the image collector -/

/-- The loop of the image collector never panics: it sends one metric for each image before
the first one without a region. -/
theorem imageLoop_eq (e : CounterVec) (images : List Image) :
    (NewImageCollector e).1.collectLoop images = Except.ok
      ((images.takeWhile (fun img => !img.Regions.isEmpty)).map (fun img =>
        { desc := (NewImageCollector e).1.MinDiskSize
          value := float64 (mulInt (mulInt (mulInt img.MinDiskSize 1024) 1024) 1024)
          labelValues :=
            [Sprintf_d img.ID, img.Name, img.Regions.headD "", img.Type_, img.Distribution] })) := by
  induction images with
  | nil => rfl
  | cons img rest ih =>
    cases hr : img.Regions with
    | nil => simp [ImageCollector.collectLoop, hr]
    | cons r rs =>
      simp only [ImageCollector.collectLoop, hr, ih]
      simp [MustNewConstMetric, NewImageCollector, NewDesc, hr]

/-- When every image has a region the loop goes through the whole list. -/
theorem takeWhile_regions_all (images : List Image)
    (h : ∀ img ∈ images, img.Regions ≠ []) :
    images.takeWhile (fun img => !img.Regions.isEmpty) = images := by
  induction images with
  | nil => rfl
  | cons img rest ih =>
    have h1 : img.Regions ≠ [] := h img (List.mem_cons_self _ _)
    have h2 : ∀ x ∈ rest, x.Regions ≠ [] := fun x hx => h x (List.mem_cons_of_mem _ hx)
    cases hr : img.Regions with
    | nil => exact absurd hr h1
    | cons r rs => simp [List.takeWhile, hr, ih h2]

/-- The loop stops at the first image without a region. -/
theorem takeWhile_regions_first (images : List Image) (k : Nat) (img : Image)
    (hk : images[k]? = some img) (hempty : img.Regions = [])
    (hfirst : ∀ j x, j < k → images[j]? = some x → x.Regions ≠ []) :
    images.takeWhile (fun img => !img.Regions.isEmpty) = images.take k := by
  induction images generalizing k with
  | nil => simp at hk
  | cons a rest ih =>
    cases k with
    | zero =>
      simp at hk
      subst hk
      simp [List.takeWhile, hempty]
    | succ n =>
      have ha : a.Regions ≠ [] := hfirst 0 a (Nat.succ_pos n) (by simp)
      have hrest : rest.takeWhile (fun img => !img.Regions.isEmpty) = rest.take n := by
        apply ih n
        · simpa using hk
        · intro j x hj hx
          exact hfirst (j + 1) x (Nat.succ_lt_succ hj) (by simpa using hx)
      cases hr : a.Regions with
      | nil => exact absurd hr ha
      | cons r rs => simp [List.takeWhile, hr, hrest]

/-- The wrap leaves an integer of the 64-bit range unchanged. -/
theorem wrapInt_of_range (x : Int) (h1 : -9223372036854775808 ≤ x)
    (h2 : x < 9223372036854775808) : wrapInt x = x := by
  unfold wrapInt
  omega

/-- Wrapping after each of the three multiplications by 1024 is wrapping the whole product. -/
theorem mulInt_1024_thrice (g : Int) :
    mulInt (mulInt (mulInt g 1024) 1024) 1024 = wrapInt (g * 1073741824) := by
  unfold mulInt wrapInt
  omega

/-- The shift of the conversion is at most the number of halvings allowed. -/
theorem float64Shift_le (fuel a : Nat) : float64Shift fuel a ≤ fuel := by
  induction fuel generalizing a with
  | zero => simp [float64Shift]
  | succ n ih =>
    unfold float64Shift
    split
    · omega
    · have := ih (a / 2)
      omega

/-- Rounding to a multiple of `2 ^ s` leaves a multiple of `2 ^ s` as it is. -/
theorem roundHalfEven_of_dvd (a s : Nat) (h : 2 ^ s ∣ a) : roundHalfEven a s = a := by
  have hr : a % 2 ^ s = 0 := Nat.mod_eq_zero_of_dvd h
  have hpos : 0 < 2 ^ s := Nat.two_pow_pos s
  simp only [roundHalfEven, hr]
  simp [hpos, Nat.div_mul_cancel h]

/-- An integer is its magnitude with its sign. -/
theorem float64_sign (n : Int) (v : Nat) (hv : v = n.natAbs) :
    (if n < 0 then -(v : Int) else (v : Int)) = n := by
  subst hv
  split <;> omega

/-- The conversion to `float64` is exact on every multiple of 2^11. -/
theorem float64_of_dvd (n : Int) (h : (2048 : Int) ∣ n) : float64 n = n := by
  have hs : float64Shift 11 n.natAbs ≤ 11 := float64Shift_le 11 _
  have h1 : (2048 : Nat) ∣ n.natAbs := by
    have := Int.natAbs_dvd_natAbs.2 h
    simpa using this
  have h2 : 2 ^ float64Shift 11 n.natAbs ∣ n.natAbs :=
    Nat.dvd_trans (Nat.pow_dvd_pow 2 hs) h1
  unfold float64
  simp only [roundHalfEven_of_dvd _ _ h2]
  exact float64_sign n _ rfl

/-- The conversion to `float64` is exact on every integer of magnitude at most 2^53. -/
theorem float64_of_small (n : Int) (hlo : -9007199254740992 ≤ n)
    (hhi : n ≤ 9007199254740992) : float64 n = n := by
  by_cases hlt : n.natAbs < 9007199254740992
  · have hs : float64Shift 11 n.natAbs = 0 := by simp [float64Shift, hlt]
    unfold float64
    rw [hs, roundHalfEven_of_dvd _ _ (by simp)]
    exact float64_sign n _ rfl
  · apply float64_of_dvd
    have : n = 9007199254740992 ∨ n = -9007199254740992 := by omega
    rcases this with h | h <;> subst h <;> decide

/-- The conversion to `float64` is exact on the wrapped product of the image collector, a
multiple of 2^30 of magnitude at most 2^63. -/
theorem float64_wrapInt_mul (g : Int) :
    float64 (wrapInt (g * 1073741824)) = wrapInt (g * 1073741824) := by
  apply float64_of_dvd
  unfold wrapInt
  omega

/-- The wrapped product is the product exactly when the size is in the range
-2^33 .. 2^33 - 1. -/
theorem wrapInt_mul_exact_iff (g : Int) :
    wrapInt (g * 1073741824) = g * 1073741824 ↔ (-8589934592 ≤ g ∧ g < 8589934592) := by
  unfold wrapInt
  constructor
  · intro h
    omega
  · intro h
    omega

/-- Below the first image without a region, the position of an image in the fetched list is
its position among the images the loop goes through. -/
theorem takeWhile_regions_get (images : List Image) (k : Nat) (img : Image)
    (himg : images[k]? = some img)
    (h : ∀ j x, j ≤ k → images[j]? = some x → x.Regions ≠ []) :
    (images.takeWhile (fun img => !img.Regions.isEmpty))[k]? = some img := by
  induction images generalizing k with
  | nil => simp at himg
  | cons a rest ih =>
    have ha : a.Regions ≠ [] := h 0 a (Nat.zero_le k) (by simp)
    cases hr : a.Regions with
    | nil => exact absurd hr ha
    | cons r rs =>
      cases k with
      | zero =>
        simp at himg
        subst himg
        simp [List.takeWhile, hr]
      | succ n =>
        have hrest : (rest.takeWhile (fun img => !img.Regions.isEmpty))[n]? = some img := by
          apply ih n
          · simpa using himg
          · intro j x hj hx
            exact h (j + 1) x (Nat.succ_le_succ hj) (by simpa using hx)
        simp [List.takeWhile, hr, hrest]

/-- After a successful fetch the image collector sends the metrics of its loop and leaves the
error counters alone. -/
theorem imageCollect_ok (e errors : CounterVec) (images : List Image) :
    (NewImageCollector e).1.Collect errors images none = Except.ok (errors,
      (images.takeWhile (fun img => !img.Regions.isEmpty)).map (fun img =>
        { desc := (NewImageCollector e).1.MinDiskSize
          value := float64 (mulInt (mulInt (mulInt img.MinDiskSize 1024) 1024) 1024)
          labelValues :=
            [Sprintf_d img.ID, img.Name, img.Regions.headD "", img.Type_, img.Distribution] })) := by
  simp only [ImageCollector.Collect, imageLoop_eq]

/-! ## Theorems on the image collector -/

/-- C1: after a successful fetch of images that all have a region, `ImageCollector.Collect`
sends exactly one metric per image, in fetch order, and the metric of an image carries the
labels decimal string of the id, name, first region, type, distribution. -/
theorem image_collect_one_sample_per_image (e errors : CounterVec) (images : List Image)
    (h : ∀ img : Image, img ∈ images → img.Regions ≠ []) :
    ∃ out, (NewImageCollector e).1.Collect errors images none = Except.ok (errors, out) ∧
      out.length = images.length ∧
      List.Forall₂ (fun img m => m.desc = (NewImageCollector e).1.MinDiskSize ∧
        ∃ region0 others, img.Regions = region0 :: others ∧
          m.labelValues = [toString img.ID, img.Name, region0, img.Type_, img.Distribution])
        images out := by
  refine ⟨_, imageCollect_ok e errors images, ?_, ?_⟩
  · simp [takeWhile_regions_all images h]
  · rw [takeWhile_regions_all images h, List.forall₂_map_right_iff, List.forall₂_same]
    intro img himg
    refine ⟨rfl, ?_⟩
    cases hr : img.Regions with
    | nil => exact absurd hr (h img himg)
    | cons r rs => exact ⟨r, rs, rfl, by simp [Sprintf_d]⟩

/-- C1 at two images, one with the id -7 and two regions, one with the id 8: the label
tuples sent are those of the two images, with the ids in decimal and the first region. -/
theorem image_collect_one_sample_per_image_witness :
    (∀ img : Image, img ∈ [imgTwoRegions, imgOneRegion] → img.Regions ≠ []) ∧
    ∃ out, (NewImageCollector CounterVec.empty).1.Collect CounterVec.empty
        [imgTwoRegions, imgOneRegion] none = Except.ok (CounterVec.empty, out) ∧
      out.length = 2 ∧
      out.map (fun m => m.labelValues) =
        [["-7", "a", "nyc1", "snapshot", "Ubuntu"], ["8", "b", "fra1", "backup", "Debian"]] := by
  refine ⟨by decide, ?_⟩
  obtain ⟨out, hc, hlen, hall⟩ := image_collect_one_sample_per_image CounterVec.empty
    CounterVec.empty [imgTwoRegions, imgOneRegion] (by decide)
  refine ⟨out, hc, hlen, ?_⟩
  cases hall with
  | cons h1 hrest =>
    cases hrest with
    | cons h2 hnil =>
      cases hnil
      obtain ⟨_, r1, o1, hr1, hl1⟩ := h1
      obtain ⟨_, r2, o2, hr2, hl2⟩ := h2
      simp only [imgTwoRegions, List.cons.injEq] at hr1
      simp only [imgOneRegion, List.cons.injEq] at hr2
      obtain ⟨hr1, _⟩ := hr1
      obtain ⟨hr2, _⟩ := hr2
      subst hr1
      subst hr2
      simp only [List.map_cons, List.map_nil, hl1, hl2]
      decide

/-- C2 as stated fails: of three fetched images the first two have no region; position 1 is
below the last position and its image has no region, yet no metric is sent, not one. -/
theorem image_collect_empty_region_counterexample :
    1 < [imgNoRegion, imgNoRegion, imgOneRegion].length - 1 ∧
    ([imgNoRegion, imgNoRegion, imgOneRegion][1]?.map (fun img => img.Regions)) = some [] ∧
    ∃ out, (NewImageCollector CounterVec.empty).1.Collect CounterVec.empty
        [imgNoRegion, imgNoRegion, imgOneRegion] none = Except.ok (CounterVec.empty, out) ∧
      out.length = 0 ∧ out.length ≠ 1 :=
  ⟨by decide, by decide, [], rfl, rfl, by decide⟩

/-- C2, amended: after a successful fetch of N images, when position k below N - 1 is the
first position whose image has no region, `ImageCollector.Collect` sends exactly k metrics,
those of the images before position k in fetch order; no image at position k or after it
produces a metric. -/
theorem image_collect_stops_at_first_empty_region (e errors : CounterVec)
    (images : List Image) (k : Nat) (img : Image)
    (hk : k < images.length - 1) (himg : images[k]? = some img) (hempty : img.Regions = [])
    (hfirst : ∀ j x, j < k → images[j]? = some x → x.Regions ≠ []) :
    ∃ out, (NewImageCollector e).1.Collect errors images none = Except.ok (errors, out) ∧
      out.length = k ∧
      List.Forall₂ (fun x m => m.desc = (NewImageCollector e).1.MinDiskSize ∧
        ∃ region0 others, x.Regions = region0 :: others ∧
          m.labelValues = [Sprintf_d x.ID, x.Name, region0, x.Type_, x.Distribution])
        (images.take k) out := by
  have hlen : k ≤ images.length := by omega
  have htw := takeWhile_regions_first images k img himg hempty hfirst
  refine ⟨_, imageCollect_ok e errors images, ?_, ?_⟩
  · simp [htw, hlen]
  · rw [htw, List.forall₂_map_right_iff, List.forall₂_same]
    intro x hx
    refine ⟨rfl, ?_⟩
    obtain ⟨j, hj, hget⟩ := List.getElem_of_mem hx
    have hjk : j < k := by
      have := hj
      simp at this
      exact this.1
    have hx2 : images[j]? = some x := by
      rw [List.getElem_take] at hget
      rw [List.getElem?_eq_getElem (by omega), hget]
    cases hr : x.Regions with
    | nil => exact absurd hr (hfirst j x hjk hx2)
    | cons r rs => exact ⟨r, rs, rfl, by simp⟩

/-- C2, amended, at four images of which the third is the first without a region. -/
theorem image_collect_stops_at_first_empty_region_witness :
    (2 < [imgTwoRegions, imgOneRegion, imgNoRegion, imgOneRegion].length - 1 ∧
      [imgTwoRegions, imgOneRegion, imgNoRegion, imgOneRegion][2]? = some imgNoRegion ∧
      imgNoRegion.Regions = []) ∧
    ∃ out, (NewImageCollector CounterVec.empty).1.Collect CounterVec.empty
        [imgTwoRegions, imgOneRegion, imgNoRegion, imgOneRegion] none
          = Except.ok (CounterVec.empty, out) ∧
      out.length = 2 ∧
      List.Forall₂ (fun x m => m.desc = (NewImageCollector CounterVec.empty).1.MinDiskSize ∧
        ∃ region0 others, x.Regions = region0 :: others ∧
          m.labelValues = [Sprintf_d x.ID, x.Name, region0, x.Type_, x.Distribution])
        ([imgTwoRegions, imgOneRegion, imgNoRegion, imgOneRegion].take 2) out :=
  ⟨by decide, image_collect_stops_at_first_empty_region CounterVec.empty CounterVec.empty
    [imgTwoRegions, imgOneRegion, imgNoRegion, imgOneRegion] 2 imgNoRegion
    (by decide) (by decide) (by decide)
    (by
      intro j x hj hx
      have hcases : j = 0 ∨ j = 1 := by omega
      rcases hcases with h0 | h1
      · subst h0
        simp at hx
        subst hx
        decide
      · subst h1
        simp at hx
        subst hx
        decide)⟩

/-- C6: when the image fetch returns an error, `ImageCollector.Collect` sends no metric,
whatever slice came with the error. -/
theorem image_collect_fetch_error_no_sample (c : ImageCollector) (errors : CounterVec)
    (images : List Image) (msg : String) :
    ∃ errors', c.Collect errors images (some msg) = Except.ok (errors', []) :=
  ⟨errors.Add "image" 1, rfl⟩

/-- C9 as stated fails: an image with a region and a minimum disk size of 2^33 gigabytes
produces a metric whose integer value is -2^63, not 2^33 * 1073741824 = 2^63. -/
theorem image_value_counterexample :
    ∃ m, (NewImageCollector CounterVec.empty).1.Collect CounterVec.empty [imgHugeDisk] none
        = Except.ok (CounterVec.empty, [m]) ∧
      imgHugeDisk.MinDiskSize = 8589934592 ∧
      m.value = -9223372036854775808 ∧
      m.value ≠ imgHugeDisk.MinDiskSize * 1073741824 :=
  ⟨_, rfl, rfl, by decide, by decide⟩

/-- C9, amended: an image that produces a metric (no image up to its position lacks a
region) gets as value the product of its minimum disk size g with 1024 * 1024 * 1024 as the
64-bit machine integer computes it, ((g * 1073741824 + 2^63) mod 2^64) - 2^63, which the
conversion to the sample value leaves unchanged; this value is g * 1073741824 exactly when
-2^33 ≤ g < 2^33, and only then. -/
theorem image_value_wrapped_product (e errors : CounterVec) (images : List Image) (k : Nat)
    (img : Image) (himg : images[k]? = some img)
    (hregions : ∀ j x, j ≤ k → images[j]? = some x → x.Regions ≠ []) :
    ∃ out m, (NewImageCollector e).1.Collect errors images none = Except.ok (errors, out) ∧
      out[k]? = some m ∧
      m.value = (img.MinDiskSize * 1073741824 + 9223372036854775808)
        % 18446744073709551616 - 9223372036854775808 ∧
      (m.value = img.MinDiskSize * 1073741824 ↔
        (-8589934592 ≤ img.MinDiskSize ∧ img.MinDiskSize < 8589934592)) := by
  have hget := takeWhile_regions_get images k img himg hregions
  have hval : float64 (mulInt (mulInt (mulInt img.MinDiskSize 1024) 1024) 1024)
      = wrapInt (img.MinDiskSize * 1073741824) := by
    rw [mulInt_1024_thrice, float64_wrapInt_mul]
  refine ⟨_, { desc := (NewImageCollector e).1.MinDiskSize
               value := float64 (mulInt (mulInt (mulInt img.MinDiskSize 1024) 1024) 1024)
               labelValues := [Sprintf_d img.ID, img.Name, img.Regions.headD "", img.Type_,
                 img.Distribution] },
    imageCollect_ok e errors images, ?_, ?_, ?_⟩
  · rw [List.getElem?_map, hget]
    rfl
  · show float64 (mulInt (mulInt (mulInt img.MinDiskSize 1024) 1024) 1024) = _
    rw [hval]
    rfl
  · show float64 (mulInt (mulInt (mulInt img.MinDiskSize 1024) 1024) 1024) = _ ↔ _
    rw [hval]
    exact wrapInt_mul_exact_iff img.MinDiskSize

/-- C9, amended, at the second of two images, with 25 gigabytes: the value sent is
26843545600, which is 25 * 1073741824. -/
theorem image_value_wrapped_product_witness :
    ([imgTwoRegions, imgOneRegion][1]? = some imgOneRegion ∧
      imgOneRegion.MinDiskSize = 25) ∧
    ∃ out m, (NewImageCollector CounterVec.empty).1.Collect CounterVec.empty
        [imgTwoRegions, imgOneRegion] none = Except.ok (CounterVec.empty, out) ∧
      out[1]? = some m ∧
      m.value = 26843545600 ∧
      m.value = 25 * 1073741824 := by
  refine ⟨by decide, ?_⟩
  obtain ⟨out, m, hc, hm, hwrap, hiff⟩ := image_value_wrapped_product CounterVec.empty
    CounterVec.empty [imgTwoRegions, imgOneRegion] 1 imgOneRegion (by decide)
    (by
      intro j x hj hx
      have hcases : j = 0 ∨ j = 1 := by omega
      rcases hcases with h0 | h1
      · subst h0
        simp at hx
        subst hx
        decide
      · subst h1
        simp at hx
        subst hx
        decide)
  refine ⟨out, m, hc, hm, ?_, ?_⟩
  · rw [hwrap]
    decide
  · exact hiff.2 (by decide)

/-! ## Lemmas on the kubernetes collector -/

/-- The four descriptors built by `NewKubernetesCollector` are pairwise distinct. -/
theorem kube_descs_distinct (e : CounterVec) :
    (NewKubernetesCollector e).1.Up ≠ (NewKubernetesCollector e).1.Count ∧
    (NewKubernetesCollector e).1.NodePools ≠ (NewKubernetesCollector e).1.Count ∧
    (NewKubernetesCollector e).1.Nodes ≠ (NewKubernetesCollector e).1.Count ∧
    (NewKubernetesCollector e).1.NodePools ≠ (NewKubernetesCollector e).1.Up ∧
    (NewKubernetesCollector e).1.Nodes ≠ (NewKubernetesCollector e).1.Up ∧
    (NewKubernetesCollector e).1.Nodes ≠ (NewKubernetesCollector e).1.NodePools := by
  simp [NewKubernetesCollector, NewDesc]

/-- The goroutines of a cluster never panic: each holds the node count metric of its pool. -/
theorem nodePoolTasks_eq (e : CounterVec) (pools : List KubernetesNodePool) :
    (NewKubernetesCollector e).1.nodePoolTasks pools = Except.ok
      (pools.map (fun np =>
        { desc := (NewKubernetesCollector e).1.Nodes
          value := float64 np.Count
          labelValues := [np.ID, np.Name, ""] })) := by
  induction pools with
  | nil => rfl
  | cons np rest ih =>
    simp only [KubernetesCollector.nodePoolTasks, ih]
    simp [KubernetesCollector.nodePoolTask, MustNewConstMetric, NewKubernetesCollector, NewDesc]

/-- The loop of the kubernetes collector never panics: it sends one block per cluster, in fetch
order; a block is the up metric, the node pool count and then the node count metrics of the
pools of that cluster in some order. -/
theorem kubeLoop_blocks (e : CounterVec) (sched : Scheduler)
    (clusters : List KubernetesCluster) (i : Nat) :
    ∃ blocks : List (List Metric),
      (NewKubernetesCollector e).1.collectLoop sched i clusters = Except.ok blocks.flatten ∧
      List.Forall₂ (fun cluster block => ∃ nodes : List Metric,
        block =
          { desc := (NewKubernetesCollector e).1.Up
            value := active cluster
            labelValues := [cluster.ID, cluster.Name, cluster.RegionSlug] } ::
          { desc := (NewKubernetesCollector e).1.NodePools
            value := (cluster.NodePools.length : Int)
            labelValues := [cluster.ID, cluster.Name, cluster.RegionSlug] } :: nodes ∧
        nodes.Perm (cluster.NodePools.map (fun np =>
          { desc := (NewKubernetesCollector e).1.Nodes
            value := float64 np.Count
            labelValues := [np.ID, np.Name, ""] }))) clusters blocks := by
  induction clusters generalizing i with
  | nil => exact ⟨[], rfl, List.Forall₂.nil⟩
  | cons cluster rest ih =>
    obtain ⟨blocks, hloop, hall⟩ := ih (i + 1)
    refine ⟨(_ :: _ :: sched.order i (cluster.NodePools.map (fun np =>
          { desc := (NewKubernetesCollector e).1.Nodes
            value := float64 np.Count
            labelValues := [np.ID, np.Name, ""] }))) :: blocks, ?_,
      List.Forall₂.cons ⟨_, rfl, sched.perm i _⟩ hall⟩
    simp only [KubernetesCollector.collectLoop, nodePoolTasks_eq, hloop]
    simp [MustNewConstMetric, NewKubernetesCollector, NewDesc]

/-- The node count metrics of a cluster, in whatever order they were sent, all carry the
nodes descriptor and three label values. -/
theorem nodes_of_perm (e : CounterVec) (pools : List KubernetesNodePool) (nodes : List Metric)
    (h : nodes.Perm (pools.map (fun np =>
      ({ desc := (NewKubernetesCollector e).1.Nodes
         value := float64 np.Count
         labelValues := [np.ID, np.Name, ""] } : Metric)))) :
    ∀ m ∈ nodes, m.desc = (NewKubernetesCollector e).1.Nodes ∧ m.labelValues.length = 3 := by
  intro m hm
  have hm2 := (h.mem_iff).1 hm
  rw [List.mem_map] at hm2
  obtain ⟨np, _, hnp⟩ := hm2
  subst hnp
  exact ⟨rfl, rfl⟩

/-- Among metrics that all carry the descriptor `d`, none carries another descriptor. -/
theorem filter_other_desc (d other : Desc) (hne : d ≠ other) (l : List Metric)
    (h : ∀ m ∈ l, m.desc = d) : l.filter (fun m => decide (m.desc = other)) = [] := by
  rw [List.filter_eq_nil_iff]
  intro m hm
  simp [h m hm, hne]

/-- Among metrics that all carry the descriptor `d`, all are kept by the filter on `d`. -/
theorem filter_same_desc (d : Desc) (l : List Metric)
    (h : ∀ m ∈ l, m.desc = d) : l.filter (fun m => decide (m.desc = d)) = l := by
  rw [List.filter_eq_self]
  intro m hm
  simp [h m hm]

/-- The method `KubernetesCollector.Collect` never panics: it counts a fetch error, sends the
cluster count and then the blocks of its loop. -/
theorem kubeCollect_ok (e errors : CounterVec) (sched : Scheduler)
    (clusters : List KubernetesCluster) (err : Option String) :
    ∃ blocks : List (List Metric),
      (NewKubernetesCollector e).1.Collect sched errors clusters err = Except.ok
        ((match err with
          | some _ => errors.Add "kubernetes" 1
          | none => errors),
         { desc := (NewKubernetesCollector e).1.Count
           value := (clusters.length : Int)
           labelValues := [] } :: blocks.flatten) ∧
      List.Forall₂ (fun cluster block => ∃ nodes : List Metric,
        block =
          { desc := (NewKubernetesCollector e).1.Up
            value := active cluster
            labelValues := [cluster.ID, cluster.Name, cluster.RegionSlug] } ::
          { desc := (NewKubernetesCollector e).1.NodePools
            value := (cluster.NodePools.length : Int)
            labelValues := [cluster.ID, cluster.Name, cluster.RegionSlug] } :: nodes ∧
        nodes.Perm (cluster.NodePools.map (fun np =>
          { desc := (NewKubernetesCollector e).1.Nodes
            value := float64 np.Count
            labelValues := [np.ID, np.Name, ""] }))) clusters blocks := by
  obtain ⟨blocks, hloop, hall⟩ := kubeLoop_blocks e sched clusters 0
  refine ⟨blocks, ?_, hall⟩
  simp only [KubernetesCollector.Collect, hloop]
  simp [MustNewConstMetric, NewKubernetesCollector, NewDesc]

/-- No metric of the blocks carries the cluster count descriptor. -/
theorem blocks_filter_count (e : CounterVec) (clusters : List KubernetesCluster)
    (blocks : List (List Metric))
    (hall : List.Forall₂ (fun cluster block => ∃ nodes : List Metric,
        block =
          { desc := (NewKubernetesCollector e).1.Up
            value := active cluster
            labelValues := [cluster.ID, cluster.Name, cluster.RegionSlug] } ::
          { desc := (NewKubernetesCollector e).1.NodePools
            value := (cluster.NodePools.length : Int)
            labelValues := [cluster.ID, cluster.Name, cluster.RegionSlug] } :: nodes ∧
        nodes.Perm (cluster.NodePools.map (fun np =>
          { desc := (NewKubernetesCollector e).1.Nodes
            value := float64 np.Count
            labelValues := [np.ID, np.Name, ""] }))) clusters blocks) :
    blocks.flatten.filter (fun m => decide (m.desc = (NewKubernetesCollector e).1.Count))
      = [] := by
  obtain ⟨h1, h2, h3, _, _, _⟩ := kube_descs_distinct e
  induction hall with
  | nil => rfl
  | cons hblock _ ih =>
    obtain ⟨nodes, hb, hperm⟩ := hblock
    subst hb
    have hn := filter_other_desc _ _ h3 nodes (fun m hm => (nodes_of_perm e _ nodes hperm m hm).1)
    simp [List.filter_cons, h1, h2, hn, ih]

/-- The metrics of the blocks that carry the up descriptor are those of the clusters, in fetch
order. -/
theorem blocks_filter_up (e : CounterVec) (clusters : List KubernetesCluster)
    (blocks : List (List Metric))
    (hall : List.Forall₂ (fun cluster block => ∃ nodes : List Metric,
        block =
          { desc := (NewKubernetesCollector e).1.Up
            value := active cluster
            labelValues := [cluster.ID, cluster.Name, cluster.RegionSlug] } ::
          { desc := (NewKubernetesCollector e).1.NodePools
            value := (cluster.NodePools.length : Int)
            labelValues := [cluster.ID, cluster.Name, cluster.RegionSlug] } :: nodes ∧
        nodes.Perm (cluster.NodePools.map (fun np =>
          { desc := (NewKubernetesCollector e).1.Nodes
            value := float64 np.Count
            labelValues := [np.ID, np.Name, ""] }))) clusters blocks) :
    blocks.flatten.filter (fun m => decide (m.desc = (NewKubernetesCollector e).1.Up))
      = clusters.map (fun cluster =>
          { desc := (NewKubernetesCollector e).1.Up
            value := active cluster
            labelValues := [cluster.ID, cluster.Name, cluster.RegionSlug] }) := by
  obtain ⟨_, _, _, h4, h5, _⟩ := kube_descs_distinct e
  induction hall with
  | nil => rfl
  | cons hblock _ ih =>
    obtain ⟨nodes, hb, hperm⟩ := hblock
    subst hb
    have hn := filter_other_desc _ _ h5 nodes (fun m hm => (nodes_of_perm e _ nodes hperm m hm).1)
    simp [List.filter_cons, h4, hn, ih]

/-- Every metric of the blocks has three label values and a descriptor with three label
names. -/
theorem blocks_arity (e : CounterVec) (clusters : List KubernetesCluster)
    (blocks : List (List Metric))
    (hall : List.Forall₂ (fun cluster block => ∃ nodes : List Metric,
        block =
          { desc := (NewKubernetesCollector e).1.Up
            value := active cluster
            labelValues := [cluster.ID, cluster.Name, cluster.RegionSlug] } ::
          { desc := (NewKubernetesCollector e).1.NodePools
            value := (cluster.NodePools.length : Int)
            labelValues := [cluster.ID, cluster.Name, cluster.RegionSlug] } :: nodes ∧
        nodes.Perm (cluster.NodePools.map (fun np =>
          { desc := (NewKubernetesCollector e).1.Nodes
            value := float64 np.Count
            labelValues := [np.ID, np.Name, ""] }))) clusters blocks) :
    ∀ m ∈ blocks.flatten,
      m.labelValues.length = 3 ∧ m.desc.variableLabels.length = 3 ∧
      (m.desc = (NewKubernetesCollector e).1.Up ∨
        m.desc = (NewKubernetesCollector e).1.NodePools ∨
        m.desc = (NewKubernetesCollector e).1.Nodes) := by
  induction hall with
  | nil => simp
  | cons hblock _ ih =>
    obtain ⟨nodes, hb, hperm⟩ := hblock
    subst hb
    intro m hm
    rw [List.flatten_cons, List.mem_append] at hm
    rcases hm with hm | hm
    · rw [List.mem_cons, List.mem_cons] at hm
      rcases hm with hm | hm | hm
      · subst hm
        exact ⟨rfl, rfl, Or.inl rfl⟩
      · subst hm
        exact ⟨rfl, rfl, Or.inr (Or.inl rfl)⟩
      · obtain ⟨hd, hl⟩ := nodes_of_perm e _ nodes hperm m hm
        exact ⟨hl, by rw [hd]; rfl, Or.inr (Or.inr hd)⟩
    · exact ih m hm

/-- Consecutive failed image fetches: each adds one to the `image` counter and leaves the
`kubernetes` counter alone. -/
theorem scrapes_image_failures (c : ImageCollector) (errors : CounterVec)
    (fails : List (List Image × String)) (n : Nat) (h : errors.value "image" = some n) :
    ∃ errors', scrapes (fun errs (f : List Image × String) => c.Collect errs f.1 (some f.2))
        errors fails = Except.ok errors' ∧
      errors'.value "image" = some (n + fails.length) ∧
      errors'.value "kubernetes" = errors.value "kubernetes" := by
  induction fails generalizing errors n with
  | nil => exact ⟨errors, rfl, by simpa using h, rfl⟩
  | cons f rest ih =>
    have hstep : (errors.Add "image" 1).value "image" = some (n + 1) := by
      simp [CounterVec.Add, h]
    obtain ⟨errors', hrun, himage, hkube⟩ := ih (errors.Add "image" 1) (n + 1) hstep
    refine ⟨errors', ?_, ?_, ?_⟩
    · simpa [scrapes, ImageCollector.Collect] using hrun
    · rw [himage, List.length_cons]
      congr 1
      omega
    · rw [hkube]
      simp [CounterVec.Add]

/-- Consecutive failed cluster fetches: each adds one to the `kubernetes` counter and leaves
the `image` counter alone, whatever slice comes with the error and whatever the scheduler
does. -/
theorem scrapes_kubernetes_failures (e errors : CounterVec)
    (fails : List (Scheduler × List KubernetesCluster × String)) (n : Nat)
    (h : errors.value "kubernetes" = some n) :
    ∃ errors', scrapes (fun errs (f : Scheduler × List KubernetesCluster × String) =>
          (NewKubernetesCollector e).1.Collect f.1 errs f.2.1 (some f.2.2))
        errors fails = Except.ok errors' ∧
      errors'.value "kubernetes" = some (n + fails.length) ∧
      errors'.value "image" = errors.value "image" := by
  induction fails generalizing errors n with
  | nil => exact ⟨errors, rfl, by simpa using h, rfl⟩
  | cons f rest ih =>
    have hstep : (errors.Add "kubernetes" 1).value "kubernetes" = some (n + 1) := by
      simp [CounterVec.Add, h]
    obtain ⟨errors', hrun, hkube, himage⟩ := ih (errors.Add "kubernetes" 1) (n + 1) hstep
    obtain ⟨blocks, hcollect, _⟩ := kubeCollect_ok e errors f.1 f.2.1 (some f.2.2)
    refine ⟨errors', ?_, ?_, ?_⟩
    · simp only [scrapes, hcollect]
      exact hrun
    · rw [hkube, List.length_cons]
      congr 1
      omega
    · rw [himage]
      simp [CounterVec.Add]

/-! ## Theorems on the kubernetes collector and on both collectors -/

/-- C3: whatever the cluster fetch returns, a slice with or without an error,
`KubernetesCollector.Collect` sends exactly one `kubernetes_cluster_count` metric; it has no
label and its value is the number of clusters in the returned slice, so 0 when the slice is
empty, as it is after a failed fetch. -/
theorem kubernetes_cluster_count_once (e errors : CounterVec) (sched : Scheduler)
    (clusters : List KubernetesCluster) (err : Option String) :
    (NewKubernetesCollector e).1.Count.fqName = "digitalocean_kubernetes_cluster_count" ∧
    (∃ errors' out,
      (NewKubernetesCollector e).1.Collect sched errors clusters err
        = Except.ok (errors', out) ∧
      out.filter (fun m => decide (m.desc = (NewKubernetesCollector e).1.Count)) =
        [{ desc := (NewKubernetesCollector e).1.Count
           value := (clusters.length : Int)
           labelValues := [] }]) ∧
    (∃ errors',
      (NewKubernetesCollector e).1.Collect sched errors [] err
        = Except.ok (errors', [{ desc := (NewKubernetesCollector e).1.Count
                                 value := 0
                                 labelValues := [] }])) := by
  refine ⟨rfl, ?_, ?_⟩
  · obtain ⟨blocks, hcollect, hall⟩ := kubeCollect_ok e errors sched clusters err
    refine ⟨_, _, hcollect, ?_⟩
    rw [List.filter_cons, blocks_filter_count e clusters blocks hall]
    simp
  · obtain ⟨blocks, hcollect, hall⟩ := kubeCollect_ok e errors sched [] err
    cases hall
    exact ⟨_, hcollect⟩

/-- C4 as stated fails: a cluster whose two node pools have 2^53 and 2^53 + 1 nodes gets two
`kubernetes_nodes_count` metrics of the same value 2^53, which are not the node counts of
its pools. -/
theorem kubernetes_node_values_counterexample :
    ∃ errors' out,
      (NewKubernetesCollector CounterVec.empty).1.Collect Scheduler.spawnOrder
        CounterVec.empty [clusterHugePools] none = Except.ok (errors', out) ∧
      (out.filter (fun m =>
          decide (m.desc = (NewKubernetesCollector CounterVec.empty).1.Nodes))).map
        (fun m => m.value) = [9007199254740992, 9007199254740992] ∧
      clusterHugePools.NodePools.map (fun np => np.Count)
        = [9007199254740992, 9007199254740993] ∧
      ¬ ([9007199254740992, 9007199254740992] : List Int).Perm
          [9007199254740992, 9007199254740993] :=
  ⟨_, _, rfl, by decide, rfl, by decide⟩

/-- C4, amended: `KubernetesCollector.Collect` sends, after the cluster count, one block per
fetched cluster in fetch order. The block of a cluster with K node pools holds exactly one
`kubernetes_cluster_up` metric and one `kubernetes_nodepools_count` metric of value K, both
labeled cluster id, cluster name, region slug, and exactly K `kubernetes_nodes_count` metrics,
one per node pool, labeled node pool id, node pool name and the empty string. When every
node count c of the cluster has -2^53 ≤ c ≤ 2^53, the K values are, up to their order, the
node counts of the pools. -/
theorem kubernetes_cluster_block (e errors : CounterVec) (sched : Scheduler)
    (clusters : List KubernetesCluster) (err : Option String) :
    (NewKubernetesCollector e).1.Up.fqName = "digitalocean_kubernetes_cluster_up" ∧
    (NewKubernetesCollector e).1.NodePools.fqName = "digitalocean_kubernetes_nodepools_count" ∧
    (NewKubernetesCollector e).1.Nodes.fqName = "digitalocean_kubernetes_nodes_count" ∧
    ∃ errors' count blocks,
      (NewKubernetesCollector e).1.Collect sched errors clusters err
        = Except.ok (errors', count :: List.flatten blocks) ∧
      List.Forall₂ (fun cluster block => ∃ up pools nodes,
        block = up :: pools :: nodes ∧
        up.desc = (NewKubernetesCollector e).1.Up ∧
        up.labelValues = [cluster.ID, cluster.Name, cluster.RegionSlug] ∧
        pools = { desc := (NewKubernetesCollector e).1.NodePools
                  value := (cluster.NodePools.length : Int)
                  labelValues := [cluster.ID, cluster.Name, cluster.RegionSlug] } ∧
        (∀ m ∈ nodes, m.desc = (NewKubernetesCollector e).1.Nodes) ∧
        (nodes.map (fun m => m.labelValues)).Perm
          (cluster.NodePools.map (fun np => [np.ID, np.Name, ""])) ∧
        nodes.length = cluster.NodePools.length ∧
        block.countP (fun m => decide (m.desc = (NewKubernetesCollector e).1.Up)) = 1 ∧
        block.countP (fun m => decide (m.desc = (NewKubernetesCollector e).1.NodePools)) = 1 ∧
        block.countP (fun m => decide (m.desc = (NewKubernetesCollector e).1.Nodes))
          = cluster.NodePools.length ∧
        ((∀ np ∈ cluster.NodePools,
            -9007199254740992 ≤ np.Count ∧ np.Count ≤ 9007199254740992) →
          nodes.Perm (cluster.NodePools.map (fun np =>
            { desc := (NewKubernetesCollector e).1.Nodes
              value := np.Count
              labelValues := [np.ID, np.Name, ""] })) ∧
          (nodes.map (fun m => m.value)).Perm (cluster.NodePools.map (fun np => np.Count))))
        clusters blocks := by
  obtain ⟨blocks, hcollect, hall⟩ := kubeCollect_ok e errors sched clusters err
  obtain ⟨_, _, _, h4, h5, h6⟩ := kube_descs_distinct e
  refine ⟨rfl, rfl, rfl, _, _, blocks, hcollect, ?_⟩
  refine List.Forall₂.imp ?_ hall
  intro cluster block hblock
  obtain ⟨nodes, hb, hperm⟩ := hblock
  have hnodes := nodes_of_perm e _ nodes hperm
  have hlen : nodes.length = cluster.NodePools.length := by
    rw [hperm.length_eq, List.length_map]
  have hlabels : (nodes.map (fun m => m.labelValues)).Perm
      (cluster.NodePools.map (fun np => [np.ID, np.Name, ""])) := by
    have := hperm.map (fun m => m.labelValues)
    simpa [List.map_map, Function.comp_def] using this
  have hexact : (∀ np ∈ cluster.NodePools,
        -9007199254740992 ≤ np.Count ∧ np.Count ≤ 9007199254740992) →
      nodes.Perm (cluster.NodePools.map (fun np =>
        ({ desc := (NewKubernetesCollector e).1.Nodes
           value := np.Count
           labelValues := [np.ID, np.Name, ""] } : Metric))) ∧
      (nodes.map (fun m => m.value)).Perm (cluster.NodePools.map (fun np => np.Count)) := by
    intro hbound
    have hsame : cluster.NodePools.map (fun np =>
          ({ desc := (NewKubernetesCollector e).1.Nodes
             value := float64 np.Count
             labelValues := [np.ID, np.Name, ""] } : Metric))
        = cluster.NodePools.map (fun np =>
          ({ desc := (NewKubernetesCollector e).1.Nodes
             value := np.Count
             labelValues := [np.ID, np.Name, ""] } : Metric)) := by
      apply List.map_congr_left
      intro np hnp
      rw [float64_of_small np.Count (hbound np hnp).1 (hbound np hnp).2]
    rw [hsame] at hperm
    refine ⟨hperm, ?_⟩
    have := hperm.map (fun m => m.value)
    simpa [List.map_map, Function.comp_def] using this
  have hcUp : nodes.countP (fun m => decide (m.desc = (NewKubernetesCollector e).1.Up)) = 0 := by
    rw [List.countP_eq_zero]
    intro m hm
    simp [(hnodes m hm).1, h5]
  have hcPools :
      nodes.countP (fun m => decide (m.desc = (NewKubernetesCollector e).1.NodePools)) = 0 := by
    rw [List.countP_eq_zero]
    intro m hm
    simp [(hnodes m hm).1, h6]
  have hcNodes :
      nodes.countP (fun m => decide (m.desc = (NewKubernetesCollector e).1.Nodes))
        = nodes.length := by
    rw [List.countP_eq_length]
    intro m hm
    simp [(hnodes m hm).1]
  refine ⟨_, _, nodes, hb, rfl, rfl, rfl, fun m hm => (hnodes m hm).1, hlabels, hlen,
    ?_, ?_, ?_, hexact⟩
  · subst hb
    simp [List.countP_cons, hcUp, h4]
  · subst hb
    simp [List.countP_cons, hcPools, h4.symm]
  · subst hb
    simp [List.countP_cons, hcNodes, hlen, h5.symm, h6.symm]

/-- C4, amended, at one cluster with two pools of 3 and 5 nodes, the goroutine spawned last
sending first: the block after the cluster count is the up metric, the node pool count 2 and
two node metrics whose values are 3 and 5 in some order. -/
theorem kubernetes_cluster_block_witness :
    (∀ np ∈ clusterTwoPools.NodePools,
      -9007199254740992 ≤ np.Count ∧ np.Count ≤ 9007199254740992) ∧
    ∃ errors' count up pools nodes,
      (NewKubernetesCollector CounterVec.empty).1.Collect Scheduler.lastFirst
        CounterVec.empty [clusterTwoPools] none
        = Except.ok (errors', count :: up :: pools :: nodes) ∧
      up.labelValues = ["c1", "prod", "nyc1"] ∧
      pools.value = 2 ∧
      nodes.length = 2 ∧
      (nodes.map (fun m => m.labelValues)).Perm [["p1", "pool-a", ""], ["p2", "pool-b", ""]] ∧
      (nodes.map (fun m => m.value)).Perm [3, 5] := by
  refine ⟨by decide, ?_⟩
  obtain ⟨_, _, _, errors', count, blocks, hc, hall⟩ := kubernetes_cluster_block
    CounterVec.empty CounterVec.empty Scheduler.lastFirst [clusterTwoPools] none
  cases hall with
  | cons hblock hrest =>
    cases hrest
    obtain ⟨up, pools, nodes, hb, _, hup, hpools, _, hlabels, hlen, _, _, _, hexact⟩ := hblock
    subst hb
    refine ⟨errors', count, up, pools, nodes, ?_, hup, ?_, hlen, hlabels,
      (hexact (by decide)).2⟩
    · simpa using hc
    · rw [hpools]
      rfl

/-- C5 fails on the kubernetes collector: after a successful fetch of one cluster with one
node pool, under every scheduler, `KubernetesCollector.Collect` sends a metric with the
`kubernetes_nodes_count` descriptor, which `KubernetesCollector.Describe` does not send. -/
theorem kubernetes_describe_misses_nodes (sched : Scheduler) :
    ∃ errors' out m,
      (NewKubernetesCollector CounterVec.empty).1.Collect sched CounterVec.empty
        [clusterProvisioning] none = Except.ok (errors', out) ∧
      m ∈ out ∧
      m.desc = (NewKubernetesCollector CounterVec.empty).1.Nodes ∧
      m.desc ∉ (NewKubernetesCollector CounterVec.empty).1.Describe := by
  obtain ⟨blocks, hcollect, hall⟩ :=
    kubeCollect_ok CounterVec.empty CounterVec.empty sched [clusterProvisioning] none
  cases hall with
  | cons hblock hrest =>
    cases hrest
    obtain ⟨nodes, hb, hperm⟩ := hblock
    have hnodes : nodes = [{ desc := (NewKubernetesCollector CounterVec.empty).1.Nodes
                             value := 1
                             labelValues := ["p3", "pool-c", ""] }] := by
      have hp : nodes.Perm [({ desc := (NewKubernetesCollector CounterVec.empty).1.Nodes
                               value := 1
                               labelValues := ["p3", "pool-c", ""] } : Metric)] := hperm
      exact List.perm_singleton.1 hp
    subst hb
    subst hnodes
    refine ⟨_, _, { desc := (NewKubernetesCollector CounterVec.empty).1.Nodes
                    value := 1
                    labelValues := ["p3", "pool-c", ""] }, hcollect, ?_, rfl, ?_⟩
    · simp
    · decide

/-- C7: a `Collect` call whose fetch fails adds exactly one to the error counter of the
own kind of the collector, `image` or `kubernetes`, and leaves the other alone; both counters are
registered at zero by the constructors, and from there n consecutive failed calls of a
collector leave its counter at n. -/
theorem error_counter_per_failed_collect (errors : CounterVec) (sched : Scheduler)
    (images : List Image) (clusters : List KubernetesCluster) (msg : String)
    (imageFails : List (List Image × String))
    (clusterFails : List (Scheduler × List KubernetesCluster × String)) :
    (∃ errors' out,
      (NewImageCollector CounterVec.empty).1.Collect errors images (some msg)
        = Except.ok (errors', out) ∧
      errors'.value "image" = some ((errors.value "image").getD 0 + 1) ∧
      errors'.value "kubernetes" = errors.value "kubernetes") ∧
    (∃ errors' out,
      (NewKubernetesCollector CounterVec.empty).1.Collect sched errors clusters (some msg)
        = Except.ok (errors', out) ∧
      errors'.value "kubernetes" = some ((errors.value "kubernetes").getD 0 + 1) ∧
      errors'.value "image" = errors.value "image") ∧
    ((NewKubernetesCollector (NewImageCollector CounterVec.empty).2).2.value "image" = some 0 ∧
     (NewKubernetesCollector (NewImageCollector CounterVec.empty).2).2.value "kubernetes"
      = some 0) ∧
    (∃ errors',
      scrapes (fun errs (f : List Image × String) =>
          (NewImageCollector CounterVec.empty).1.Collect errs f.1 (some f.2))
        (NewKubernetesCollector (NewImageCollector CounterVec.empty).2).2 imageFails
        = Except.ok errors' ∧
      errors'.value "image" = some imageFails.length ∧
      errors'.value "kubernetes" = some 0) ∧
    (∃ errors',
      scrapes (fun errs (f : Scheduler × List KubernetesCluster × String) =>
          (NewKubernetesCollector CounterVec.empty).1.Collect f.1 errs f.2.1 (some f.2.2))
        (NewKubernetesCollector (NewImageCollector CounterVec.empty).2).2 clusterFails
        = Except.ok errors' ∧
      errors'.value "kubernetes" = some clusterFails.length ∧
      errors'.value "image" = some 0) := by
  have hi0 : (NewKubernetesCollector (NewImageCollector CounterVec.empty).2).2.value "image"
      = some 0 := by decide
  have hk0 : (NewKubernetesCollector (NewImageCollector CounterVec.empty).2).2.value "kubernetes"
      = some 0 := by decide
  refine ⟨?_, ?_, ⟨hi0, hk0⟩, ?_, ?_⟩
  · exact ⟨errors.Add "image" 1, [], rfl, by simp [CounterVec.Add], by simp [CounterVec.Add]⟩
  · obtain ⟨blocks, hcollect, _⟩ :=
      kubeCollect_ok CounterVec.empty errors sched clusters (some msg)
    exact ⟨_, _, hcollect, by simp [CounterVec.Add], by simp [CounterVec.Add]⟩
  · obtain ⟨errors', hrun, himage, hkube⟩ :=
      scrapes_image_failures (NewImageCollector CounterVec.empty).1 _ imageFails 0 hi0
    exact ⟨errors', hrun, by simpa using himage, by rw [hkube, hk0]⟩
  · obtain ⟨errors', hrun, hkube, himage⟩ :=
      scrapes_kubernetes_failures CounterVec.empty _ clusterFails 0 hk0
    exact ⟨errors', hrun, by simpa using hkube, by rw [himage, hi0]⟩

/-- C8: the up projection is total. Whatever the fetch returns, `KubernetesCollector.Collect`
sends one `kubernetes_cluster_up` metric per cluster, in fetch order, whose value is 1 when
the state of the cluster is the string `running` and 0 for every other state. -/
theorem kubernetes_cluster_up_value (e errors : CounterVec) (sched : Scheduler)
    (clusters : List KubernetesCluster) (err : Option String) :
    ∃ errors' out,
      (NewKubernetesCollector e).1.Collect sched errors clusters err
        = Except.ok (errors', out) ∧
      out.filter (fun m => decide (m.desc = (NewKubernetesCollector e).1.Up)) =
        clusters.map (fun cluster =>
          { desc := (NewKubernetesCollector e).1.Up
            value := if cluster.Status.State = "running" then 1 else 0
            labelValues := [cluster.ID, cluster.Name, cluster.RegionSlug] }) := by
  obtain ⟨blocks, hcollect, hall⟩ := kubeCollect_ok e errors sched clusters err
  obtain ⟨h1, _, _, _, _, _⟩ := kube_descs_distinct e
  refine ⟨_, _, hcollect, ?_⟩
  rw [List.filter_cons, blocks_filter_up e clusters blocks hall]
  simp [h1.symm, active, KubernetesClusterStatusRunning]

/-- C10: whatever the fetch returns, neither `Collect` panics, and every metric sent has as
many label values as its descriptor has label names: 5 for `image_min_disk_size_bytes`, 0 for
`kubernetes_cluster_count`, 3 for `kubernetes_cluster_up`, `kubernetes_nodepools_count` and
`kubernetes_nodes_count`. -/
theorem sample_arity_matches_descriptor (e errors : CounterVec) (sched : Scheduler)
    (images : List Image) (clusters : List KubernetesCluster) (err : Option String) :
    ((NewImageCollector e).1.MinDiskSize.variableLabels.length = 5 ∧
     (NewKubernetesCollector e).1.Count.variableLabels.length = 0 ∧
     (NewKubernetesCollector e).1.Up.variableLabels.length = 3 ∧
     (NewKubernetesCollector e).1.NodePools.variableLabels.length = 3 ∧
     (NewKubernetesCollector e).1.Nodes.variableLabels.length = 3) ∧
    (∃ errors' out,
      (NewImageCollector e).1.Collect errors images err = Except.ok (errors', out) ∧
      ∀ m ∈ out, m.desc = (NewImageCollector e).1.MinDiskSize ∧
        m.labelValues.length = m.desc.variableLabels.length) ∧
    (∃ errors' out,
      (NewKubernetesCollector e).1.Collect sched errors clusters err
        = Except.ok (errors', out) ∧
      ∀ m ∈ out,
        (m.desc = (NewKubernetesCollector e).1.Count ∨
          m.desc = (NewKubernetesCollector e).1.Up ∨
          m.desc = (NewKubernetesCollector e).1.NodePools ∨
          m.desc = (NewKubernetesCollector e).1.Nodes) ∧
        m.labelValues.length = m.desc.variableLabels.length) := by
  refine ⟨⟨rfl, rfl, rfl, rfl, rfl⟩, ?_, ?_⟩
  · cases err with
    | some msg => exact ⟨errors.Add "image" 1, [], rfl, by simp⟩
    | none =>
      refine ⟨_, _, imageCollect_ok e errors images, ?_⟩
      intro m hm
      rw [List.mem_map] at hm
      obtain ⟨img, _, himg⟩ := hm
      subst himg
      exact ⟨rfl, rfl⟩
  · obtain ⟨blocks, hcollect, hall⟩ := kubeCollect_ok e errors sched clusters err
    refine ⟨_, _, hcollect, ?_⟩
    intro m hm
    rw [List.mem_cons] at hm
    rcases hm with hm | hm
    · subst hm
      exact ⟨Or.inl rfl, rfl⟩
    · obtain ⟨hl, hd, hdesc⟩ := blocks_arity e clusters blocks hall m hm
      exact ⟨Or.inr hdesc, by rw [hl, hd]⟩

end Collector
